import Mathlib

/-!
# Formal model of the npm-registry-analytics download-count client

A shallow embedding of the core of the `npm-registry-analytics` repository:

* `src/RequestService.ts` — the resilient request layer (query-string
  serialization, URL assembly, and the bounded-retry fetch loop);
* the `NpmDownloadCountClient` facade — request-path construction from
  period descriptors, week resolution (via the `date-fns` functions
  `parseISO`, `startOfWeek`, `endOfWeek` that the client calls), zod schema
  validation of responses, and the error-wrapping request pipeline.

JavaScript `Date` values are modelled in a single calendar frame: a date is
either a civil triple (year, month, day) — the values its accessors
`getFullYear` / `getMonth` / `getDate` return — or, where week arithmetic
needs it, the day number relative to 1970-01-01.  Mutable state
(`#requestRetry.count`) is threaded explicitly; `async` control flow is
modelled by values (a fetch is a function from the attempt index to the
response it produced, delays are recorded in a list).
-/

namespace NpmStats

/-- A JSON value, as produced by `response.json()` in `RequestService.request`
and consumed by the zod schemas.  Numbers are modelled as integers (download
counts are integral). -/
inductive Json where
  | null
  | bool (b : Bool)
  | num (n : Int)
  | str (s : String)
  | arr (elems : List Json)
  | obj (fields : List (String × Json))
deriving BEq

/-! ## RequestService: HTTP responses and the retry loop

Embeds `RequestService.request` (src/RequestService.ts, lines 53–103).
-/

/-- What one `fetch` attempt yields: the HTTP status code and, for the body,
`some j` when `response.json()` succeeds with value `j` and `none` when the
body is not valid JSON. -/
structure HttpResponse where
  status : Nat
  jsonBody : Option Json

/-- The mutable retry configuration `#requestRetry` of a `RequestService`
instance: `{ count, maxRetries, delay }` (src/RequestService.ts lines 32–42). -/
structure RequestRetry where
  count : Nat
  maxRetries : Nat
  delay : Nat
deriving BEq

/-- The errors `RequestService.request` can throw. -/
inductive RequestError where
  | maxRetriesExceeded
  | badStatus (code : Nat)
  | nonJsonResponse
deriving BEq

/-- The `message` property of the thrown `Error`, exactly as in the source. -/
def RequestError.message : RequestError → String
  | .maxRetriesExceeded =>
      "API endpoint failed to provide a valid response, max retries exceeded"
  | .badStatus code => "API endpoint returned status code " ++ toString code
  | .nonJsonResponse => "API endpoint returned a non JSON response"

/-- Mirrors `[500, 502, 503, 504].includes(response.status)`
(src/RequestService.ts line 65). -/
def isRetriableCode (status : Nat) : Bool :=
  status == 500 || status == 502 || status == 503 || status == 504

/-- Mirrors `response.ok` of the Fetch API: status in the 2xx range. -/
def responseOk (status : Nat) : Bool :=
  200 ≤ status && status ≤ 299

/-- Everything observable about one settled `request()` call:

* `result` — the returned JSON body or the thrown error;
* `finalCount` — the value of `#requestRetry.count` once the call settles
  (the instance state a later call on the same instance starts from);
* `fetchCount` — how many `fetch` attempts were performed;
* `delays` — the delays awaited via `setTimeout`, in order, each recorded
  immediately before the retry it precedes. -/
structure RequestOutcome where
  result : Except RequestError Json
  finalCount : Nat
  fetchCount : Nat
  delays : List Nat

/-- The body of `RequestService.request` (src/RequestService.ts lines 60–99),
from the state `st` of `#requestRetry`, fetching the `attempt`-th response of
`server` (the recursive call `this.request(options)` refetches the same URL,
so only the attempt index varies):

* 2xx: reset `count` to 0, then parse the body; a non-JSON body throws
  `nonJsonResponse` (lines 88–99);
* retriable status with `count < maxRetries`: increment `count`, await
  `delay`, recurse (lines 66–75);
* retriable status with `count >= maxRetries`: throw `maxRetriesExceeded`
  (lines 76–83) — note the source throws before reaching the
  `this.#requestRetry.count = 0` on line 85, so `count` is left as is;
* any other non-2xx status: reset `count` to 0 and throw `badStatus`
  (lines 84–86). -/
def requestFrom (server : Nat → HttpResponse) (st : RequestRetry)
    (attempt : Nat) : RequestOutcome :=
  let response := server attempt
  if responseOk response.status then
    match response.jsonBody with
    | some body => ⟨.ok body, 0, 1, []⟩
    | none => ⟨.error .nonJsonResponse, 0, 1, []⟩
  else if h : isRetriableCode response.status ∧ st.count < st.maxRetries then
    let rest := requestFrom server { st with count := st.count + 1 } (attempt + 1)
    ⟨rest.result, rest.finalCount, rest.fetchCount + 1, st.delay :: rest.delays⟩
  else if isRetriableCode response.status ∧ st.maxRetries ≤ st.count then
    ⟨.error .maxRetriesExceeded, st.count, 1, []⟩
  else
    ⟨.error (.badStatus response.status), 0, 1, []⟩
termination_by st.maxRetries - st.count
decreasing_by
  omega

/-- A single logical `request()` call on a freshly constructed instance:
the constructor initialises `count` to 0 (src/RequestService.ts line 33). -/
def requestFresh (server : Nat → HttpResponse) (maxRetries delay : Nat) :
    RequestOutcome :=
  requestFrom server ⟨0, maxRetries, delay⟩ 0

/-! ## RequestService: query-parameter serialization

Embeds `RequestService.#serializeQueryParams` (src/RequestService.ts lines
113–129) together with the two JavaScript string-escaping routines it relies
on: `encodeURI` and the `application/x-www-form-urlencoded` serialization that
`URLSearchParams.toString()` performs.
-/

/-- UTF-8 encoding of one character, as a list of byte values.  Both
JavaScript escaping routines percent-encode the UTF-8 bytes of a character. -/
def utf8Bytes (c : Char) : List Nat :=
  let n := c.toNat
  if n < 128 then [n]
  else if n < 2048 then [192 + n / 64, 128 + n % 64]
  else if n < 65536 then [224 + n / 4096, 128 + n / 64 % 64, 128 + n % 64]
  else [240 + n / 262144, 128 + n / 4096 % 64, 128 + n / 64 % 64, 128 + n % 64]

/-- Upper-case hexadecimal digit for a value below 16. -/
def hexDigit (n : Nat) : Char :=
  if n < 10 then Char.ofNat (48 + n) else Char.ofNat (55 + n)

/-- Percent-escape of one byte: `%XX` with upper-case hex digits. -/
def percentByte (b : Nat) : List Char :=
  ['%', hexDigit (b / 16), hexDigit (b % 16)]

/-- The characters `encodeURI` leaves unescaped: ASCII alphanumerics, the
unreserved marks, and the URI reserved characters including `@`. -/
def encodeURIUnescaped (c : Char) : Bool :=
  c.isAlpha || c.isDigit ||
    c == ';' || c == ',' || c == '/' || c == '?' || c == ':' || c == '@' ||
    c == '&' || c == '=' || c == '+' || c == '$' || c == '-' || c == '_' ||
    c == '.' || c == '!' || c == '~' || c == '*' || c == Char.ofNat 39 ||
    c == '(' || c == ')' || c == '#'

/-- JavaScript `encodeURI`: every character outside the unescaped set is
replaced by the percent-escapes of its UTF-8 bytes. -/
def encodeURI (s : String) : String :=
  String.mk (s.toList.foldr
    (fun c acc =>
      (if encodeURIUnescaped c then [c] else (utf8Bytes c).foldr
        (fun b bacc => percentByte b ++ bacc) []) ++ acc) [])

/-- The characters `URLSearchParams` serialization leaves unescaped:
ASCII alphanumerics and `*`, `-`, `.`, `_`. -/
def formUnescaped (c : Char) : Bool :=
  c.isAlpha || c.isDigit || c == '*' || c == '-' || c == '.' || c == '_'

/-- The `application/x-www-form-urlencoded` escaping performed by
`URLSearchParams.toString()` on each name and value: unescaped characters are
kept, a space becomes `+`, and every other character is replaced by the
percent-escapes of its UTF-8 bytes (so `@` becomes `%40`). -/
def formEncode (s : String) : String :=
  String.mk (s.toList.foldr
    (fun c acc =>
      (if formUnescaped c then [c]
       else if c == ' ' then ['+']
       else (utf8Bytes c).foldr (fun b bacc => percentByte b ++ bacc) []) ++ acc)
    [])

/-- A JavaScript value appearing in the `queryParams` record passed to
`request()`.  `num` covers `typeof value === 'number'` (download-count query
values are integral), `bigint` a bigint primitive, and `date` a `Date`
carrying the civil date its `toISOString()` renders. -/
inductive JsParamValue where
  | undef
  | null
  | num (n : Int)
  | bigint (n : Int)
  | str (s : String)
  | date (year : Int) (month day : Nat)

/-- Zero-pad a numeral to two digits, as `toISOString` does. -/
def pad2 (n : Nat) : String :=
  if n < 10 then "0" ++ toString n else toString n

/-- The `value.toISOString().split('T')[0]` rendering of a `Date`
(src/RequestService.ts line 124): zero-padded `YYYY-MM-DD`. -/
def isoDatePart (year : Int) (month day : Nat) : String :=
  toString year ++ "-" ++ pad2 month ++ "-" ++ pad2 day

/-- The `URLSearchParams.append` calls one `[key, value]` entry of the
`queryParams` record produces (src/RequestService.ts lines 115–126):

* `undefined` and `null` values are skipped (line 116);
* a number is appended via the template `${value}` (lines 117–119);
* a bigint matches no branch: `typeof value === 'number'` is false for a
  bigint, and `value instanceof BigInt` is false for every bigint primitive
  (a primitive is not an object, so `instanceof` yields false), so nothing
  is appended — the repository's own test expects `bar: BigInt(42)` to be
  absent from the query string;
* a string is appended after `encodeURI` (lines 120–122);
* a `Date` is appended as `toISOString().split('T')[0]` (lines 123–125). -/
def appendedPairs : String × JsParamValue → List (String × String)
  | (_, .undef) => []
  | (_, .null) => []
  | (key, .num n) => [(key, toString n)]
  | (_, .bigint _) => []
  | (key, .str s) => [(key, encodeURI s)]
  | (key, .date y m d) => [(key, isoDatePart y m d)]

/-- `RequestService.#serializeQueryParams` (src/RequestService.ts lines
113–129): the entries appended to the `URLSearchParams`, in object-entry
order. -/
def serializeQueryParams (params : List (String × JsParamValue)) :
    List (String × String) :=
  (params.map appendedPairs).flatten

/-- `URLSearchParams.toString()`: the appended pairs rendered as
`name=value`, form-url-encoded and joined with `&`; no leading `?`. -/
def renderSearchParams : List (String × String) → String
  | [] => ""
  | [kv] => formEncode kv.1 ++ "=" ++ formEncode kv.2
  | kv :: rest => formEncode kv.1 ++ "=" ++ formEncode kv.2 ++ "&" ++ renderSearchParams rest

/-- The query-string fragment of the fetched URL
(src/RequestService.ts lines 55–57): when a `queryParams` value is supplied
(any object is truthy, even one whose every value is `undefined`), a `?` is
prepended to the serialized parameters; when the option is absent the
fragment is empty. -/
def queryFragment (queryParams : Option (List (String × JsParamValue))) : String :=
  match queryParams with
  | some ps => "?" ++ renderSearchParams (serializeQueryParams ps)
  | none => ""

/-- The URL string passed to `fetch`:
`` `${this.#basePath}${path}${query}` `` (src/RequestService.ts line 60). -/
def requestUrl (basePath path : String)
    (queryParams : Option (List (String × JsParamValue))) : String :=
  basePath ++ path ++ queryFragment queryParams

/-! ## Calendar arithmetic

A JavaScript `Date` is a timestamp; at the day granularity the client works
with, it is the day number relative to 1970-01-01.  The civil view (what
`getFullYear` / `getMonth` / `getDate` return) is connected to day numbers by
the standard proleptic-Gregorian conversions (Howard Hinnant's algorithms,
written with floor division, which is what `Int./` and `Int.%` provide for a
positive divisor).
-/

/-- A civil calendar date: `year`, `month` (1–12), `day` (1–31) — the values
of `getFullYear()`, `getMonth() + 1` and `getDate()`. -/
structure JsDate where
  year : Int
  month : Nat
  day : Nat
deriving BEq, DecidableEq

/-- Day number (days since 1970-01-01) of a civil date. -/
def daysFromCivil (y : Int) (m d : Int) : Int :=
  let yAdj := if m ≤ 2 then y - 1 else y
  let era := yAdj / 400
  let yoe := yAdj - era * 400
  let mp := if 2 < m then m - 3 else m + 9
  let doy := (153 * mp + 2) / 5 + d - 1
  let doe := yoe * 365 + yoe / 4 - yoe / 100 + doy
  era * 146097 + doe - 719468

/-- Civil date of a day number (inverse of `daysFromCivil`). -/
def civilFromDays (z0 : Int) : JsDate :=
  let z := z0 + 719468
  let era := z / 146097
  let doe := z - era * 146097
  let yoe := (doe - doe / 1460 + doe / 36524 - doe / 146096) / 365
  let y := yoe + era * 400
  let doy := doe - (365 * yoe + yoe / 4 - yoe / 100)
  let mp := (5 * doy + 2) / 153
  let d := doy - (153 * mp + 2) / 5 + 1
  let m := if mp < 10 then mp + 3 else mp - 9
  ⟨if m ≤ 2 then y + 1 else y, m.toNat, d.toNat⟩

/-- Day number of a civil date given as a `JsDate`. -/
def JsDate.toDays (dt : JsDate) : Int :=
  daysFromCivil dt.year dt.month dt.day

/-- JavaScript `Date.prototype.getDay()` on a day number: 0 = Sunday …
6 = Saturday; day 0 (1970-01-01) was a Thursday. -/
def dayOfWeek (z : Int) : Int :=
  (z + 4) % 7

/-! ## date-fns: parseISO

The client resolves week tokens with `parseISO` from `date-fns` (v2).  The
embedding below covers the date portion of `parseISO` on the token shapes the
client can feed it: a 4-digit year (or a lone 2-digit century) followed by
the empty, `MM`, `MM-DD`, `MMDD`, `DDD` (day-of-year) or `Www` / `Www-D`
(ISO week) forms of its date regex
`^-?(?:(\d{3})|(\d{2})(?:-?(\d{2}))?|W(\d{2})(?:-?(\d))?|)$`; sign-prefixed
expanded years and time-of-day parts are not modelled.  An unparsable string
yields `none` (JavaScript's `Invalid Date`).
-/

/-- Numeric value of a decimal digit character. -/
def digitVal (c : Char) : Nat :=
  c.toNat - 48

/-- The `parseYear` step of `parseISO`: a 4-digit year with the rest of the
string left over, or a lone 2-digit century (which must end the string). -/
def parseYearPart : List Char → Option (Int × List Char)
  | c1 :: c2 :: c3 :: c4 :: rest =>
      if c1.isDigit && c2.isDigit && c3.isDigit && c4.isDigit then
        some ((((digitVal c1 * 10 + digitVal c2) * 10 + digitVal c3) * 10
          + digitVal c4 : Nat), rest)
      else none
  | [c1, c2] =>
      if c1.isDigit && c2.isDigit then
        some (((digitVal c1 * 10 + digitVal c2) * 100 : Nat), [])
      else none
  | _ => none

/-- Leap-year test of `parseISO` (`isLeapYearIndex`). -/
def isLeapYear (y : Int) : Bool :=
  y % 400 == 0 || (y % 4 == 0 && y % 100 != 0)

/-- Day count of month `m1` (1-based) used by `parseISO`'s `validateDate`:
the `daysInMonths` table with February resolved through the leap-year test. -/
def daysInMonth (y : Int) (m1 : Nat) : Nat :=
  if m1 == 2 then (if isLeapYear y then 29 else 28)
  else if m1 == 4 || m1 == 6 || m1 == 9 || m1 == 11 then 30
  else 31

/-- The `dayOfISOWeekYear` helper of `parseISO`: starting from January 4 of
`year`, move by `week0 * 7 + day0 + 1 - fourthOfJanuaryDay` days, where
`fourthOfJanuaryDay` is `getUTCDay() || 7` of January 4 and `week0`, `day0`
are the zero-based week and day-of-week. -/
def dayOfISOWeekYear (year : Int) (week0 day0 : Int) : Int :=
  let jan4 := daysFromCivil year 1 4
  let jan4Dow := if dayOfWeek jan4 == 0 then 7 else dayOfWeek jan4
  jan4 + (week0 * 7 + day0 + 1 - jan4Dow)

/-- The `parseDate` step of `parseISO` applied after the year, on the
remainder of the string with its optional leading `-` already removed:
resolves each date-regex branch, validates it, and yields the day number. -/
def parseDateTail (year : Int) : List Char → Option Int
  | [] => some (daysFromCivil year 1 1)
  | 'W' :: ws =>
      match ws with
      | [w1, w2] =>
          if w1.isDigit && w2.isDigit then
            let week0 : Int := (digitVal w1 * 10 + digitVal w2 : Nat) - 1
            if 0 ≤ week0 && week0 ≤ 52 then
              some (dayOfISOWeekYear year week0 0)
            else none
          else none
      | [w1, w2, w3] =>
          if w1.isDigit && w2.isDigit && w3.isDigit then
            let week0 : Int := (digitVal w1 * 10 + digitVal w2 : Nat) - 1
            let day0 : Int := (digitVal w3 : Nat) - 1
            if 0 ≤ week0 && week0 ≤ 52 && 0 ≤ day0 && day0 ≤ 6 then
              some (dayOfISOWeekYear year week0 day0)
            else none
          else none
      | [w1, w2, '-', w3] =>
          if w1.isDigit && w2.isDigit && w3.isDigit then
            let week0 : Int := (digitVal w1 * 10 + digitVal w2 : Nat) - 1
            let day0 : Int := (digitVal w3 : Nat) - 1
            if 0 ≤ week0 && week0 ≤ 52 && 0 ≤ day0 && day0 ≤ 6 then
              some (dayOfISOWeekYear year week0 day0)
            else none
          else none
      | _ => none
  | [m1, m2] =>
      if m1.isDigit && m2.isDigit then
        let mth := digitVal m1 * 10 + digitVal m2
        if 1 ≤ mth && mth ≤ 12 then some (daysFromCivil year mth 1) else none
      else none
  | [d1, d2, d3] =>
      if d1.isDigit && d2.isDigit && d3.isDigit then
        let doy := (digitVal d1 * 10 + digitVal d2) * 10 + digitVal d3
        if doy ≤ (if isLeapYear year then 366 else 365) then
          some (daysFromCivil year 1 1 + (max doy 1) - 1)
        else none
      else none
  | [m1, m2, d1, d2] =>
      if m1.isDigit && m2.isDigit && d1.isDigit && d2.isDigit then
        let mth := digitVal m1 * 10 + digitVal m2
        let dd := digitVal d1 * 10 + digitVal d2
        if 1 ≤ mth && mth ≤ 12 && 1 ≤ dd && dd ≤ daysInMonth year mth then
          some (daysFromCivil year mth dd)
        else none
      else none
  | [m1, m2, '-', d1, d2] =>
      if m1.isDigit && m2.isDigit && d1.isDigit && d2.isDigit then
        let mth := digitVal m1 * 10 + digitVal m2
        let dd := digitVal d1 * 10 + digitVal d2
        if 1 ≤ mth && mth ≤ 12 && 1 ≤ dd && dd ≤ daysInMonth year mth then
          some (daysFromCivil year mth dd)
        else none
      else none
  | _ => none

/-- Strip the optional `-` between the year and the rest of the date string
(the `-?` of the date regex). -/
def stripDash : List Char → List Char
  | '-' :: rest => rest
  | cs => cs

/-- The date portion of `date-fns`' `parseISO`, as the day number of the
parsed calendar date; `none` models `Invalid Date`. -/
def parseISO (s : String) : Option Int :=
  match parseYearPart s.toList with
  | none => none
  | some (y, rest) => parseDateTail y (stripDash rest)

/-! ## date-fns: startOfWeek and endOfWeek, and the client's week resolution

Embeds `NpmDownloadCountClient.#getStartAndEndDatesForWeek` together with the
`date-fns` `startOfWeek` / `endOfWeek` it calls.
-/

/-- The `startOfWeek` option of the week methods; when the option is omitted
the code behaves as `monday` (`startOfWeek === 'sunday' ? 0 : 1`). -/
inductive StartOfWeek where
  | monday
  | sunday
deriving BEq

/-- The `weekStartsOn` value passed to `date-fns`:
`startOfWeek === 'sunday' ? 0 : 1`. -/
def StartOfWeek.weekStartsOn : StartOfWeek → Int
  | .monday => 1
  | .sunday => 0

/-- date-fns `startOfWeek` on a day number:
`diff = (day < weekStartsOn ? 7 : 0) + day - weekStartsOn` subtracted from
the date, where `day` is `getDay()`. -/
def startOfWeekNum (weekStartsOn z : Int) : Int :=
  z - ((if dayOfWeek z < weekStartsOn then 7 else 0) + dayOfWeek z - weekStartsOn)

/-- date-fns `endOfWeek` on a day number:
`diff = (day < weekStartsOn ? -7 : 0) + 6 - (day - weekStartsOn)` added to
the date. -/
def endOfWeekNum (weekStartsOn z : Int) : Int :=
  z + ((if dayOfWeek z < weekStartsOn then -7 else 0) + 6 - (dayOfWeek z - weekStartsOn))

/-- The `week` argument of the week methods: a `Date` object (carried as its
day number) or a string. -/
inductive WeekInput where
  | dateObj (z : Int)
  | str (s : String)

/-- Mirrors `week.toUpperCase().startsWith('W')`: the first character,
upper-cased, is `W`. -/
def toUpperStartsWithW (s : String) : Bool :=
  match s.toList with
  | [] => false
  | c :: _ => c.toUpper == 'W'

/-- `NpmDownloadCountClient.#getStartAndEndDatesForWeek`: pick the week date
(a `Date` as is; a `W`-prefixed string concatenated after the current year
and parsed; any other string parsed directly), then take `startOfWeek` and
`endOfWeek` of it.  `currentYear` stands for `new Date().getFullYear()`.
`none` models the `Invalid Date` results produced by an unparsable string. -/
def getStartAndEndDatesForWeek (currentYear : Int) (week : WeekInput)
    (startOfWeek : StartOfWeek) : Option (Int × Int) :=
  let weekDate : Option Int :=
    match week with
    | .dateObj z => some z
    | .str s =>
        if toUpperStartsWithW s then parseISO (toString currentYear ++ s)
        else parseISO s
  match weekDate with
  | none => none
  | some z =>
      some (startOfWeekNum startOfWeek.weekStartsOn z,
            endOfWeekNum startOfWeek.weekStartsOn z)

/-! ## Client facade: request paths

Embeds `NpmDownloadCountClient.#makeRequestPaths`.
-/

/-- The `RequestType` union: `'point' | 'range'`. -/
inductive RequestType where
  | point
  | range
deriving BEq

/-- The path segment a `RequestType` interpolates to. -/
def RequestType.render : RequestType → String
  | .point => "point"
  | .range => "range"

/-- The `RequestKeyword` union: `'last-day' | 'last-week' | 'last-month'`. -/
inductive RequestKeyword where
  | lastDay
  | lastWeek
  | lastMonth

/-- The path segment a `RequestKeyword` interpolates to. -/
def RequestKeyword.render : RequestKeyword → String
  | .lastDay => "last-day"
  | .lastWeek => "last-week"
  | .lastMonth => "last-month"

/-- The mutually exclusive period part of `MakeRequestPathOptions`
(src/types/NpmDownloadCountClient.ts lines 577–649): exactly one of a
keyword, a single date, or a start/end date pair. -/
inductive PeriodSelector where
  | keyword (kw : RequestKeyword)
  | singleDate (date : JsDate)
  | dateRange (startDate endDate : JsDate)

/-- The `MakeRequestPathOptions` record. -/
structure MakeRequestPathOptions where
  packages : List String
  requestType : RequestType
  period : PeriodSelector

/-- JavaScript `getFullYear()` on the civil view of a date. -/
def JsDate.getFullYear (dt : JsDate) : Int := dt.year

/-- JavaScript `getMonth()`: zero-based month. -/
def JsDate.getMonth (dt : JsDate) : Nat := dt.month - 1

/-- JavaScript `getDate()`: day of month. -/
def JsDate.getDate (dt : JsDate) : Nat := dt.day

/-- The single-date fragment
`` `${date.getFullYear()}-${date.getMonth() + 1}-${date.getDate()}` `` built
by `#makeRequestPaths`: template-literal interpolation of the numbers, hence
no zero-padding. -/
def singleDateFragment (date : JsDate) : String :=
  toString date.getFullYear ++ "-" ++ toString (date.getMonth + 1) ++ "-" ++
    toString date.getDate

/-- `NpmDownloadCountClient.#makeRequestPaths`: compute the `when` fragment
from whichever period field is populated (keyword, single date, or
`start:end` range), then build `/{requestType}/{when}/{packageName}` for
each package, in package order. -/
def makeRequestPaths (options : MakeRequestPathOptions) : List String :=
  let whenFragment : String :=
    match options.period with
    | .keyword kw => kw.render
    | .singleDate date => singleDateFragment date
    | .dateRange startDate endDate =>
        singleDateFragment startDate ++ ":" ++ singleDateFragment endDate
  options.packages.map
    (fun packageName =>
      "/" ++ options.requestType.render ++ "/" ++ whenFragment ++ "/" ++ packageName)

/-! ## Client facade: response validation and the request pipeline

Embeds the zod schemas (src/schemas/NpmAPIPointResponse.ts,
src/schemas/NpmAPIRangeResponse.ts), `NpmDownloadCountClient.#parseObjectWithSchema`,
and `NpmDownloadCountClient.#request`.
-/

/-- The errors observable from a facade call. `requestFailure` is an error
thrown by `RequestService.request`; `validation` is the `ValidationError`
(message `Object shape is not valid.`) thrown by `#parseObjectWithSchema`;
`wrapped` is the outward error built in `#request`'s catch block, whose
`cause` option carries the caught error. -/
inductive ClientError where
  | requestFailure (e : RequestError)
  | validation (message : String)
  | wrapped (message : String) (cause : ClientError)
deriving BEq

/-- Parse one element of the range schema's `downloads` array:
`z.object({ downloads: z.number(), day: z.string() })`, unknown keys
stripped. -/
def parseRangeItem : Json → Option Json
  | .obj fields =>
      match fields.lookup "downloads", fields.lookup "day" with
      | some (.num n), some (.str d) =>
          some (.obj [("downloads", .num n), ("day", .str d)])
      | _, _ => none
  | _ => none

/-- `NpmAPIPointResponseSchema.parse`: requires `package`, `start`, `end`
strings and a numeric `downloads`; returns the object with exactly the
schema's keys (zod strips unknown keys), in schema declaration order. -/
def parsePointSchema : Json → Option Json
  | .obj fields =>
      match fields.lookup "package", fields.lookup "downloads",
          fields.lookup "start", fields.lookup "end" with
      | some (.str p), some (.num n), some (.str s), some (.str e) =>
          some (.obj [("package", .str p), ("downloads", .num n),
            ("start", .str s), ("end", .str e)])
      | _, _, _, _ => none
  | _ => none

/-- `NpmAPIRangeResponseSchema.parse`: requires `package`, `start`, `end`
strings and a `downloads` array of valid items. -/
def parseRangeSchema : Json → Option Json
  | .obj fields =>
      match fields.lookup "package", fields.lookup "start",
          fields.lookup "end", fields.lookup "downloads" with
      | some (.str p), some (.str s), some (.str e), some (.arr items) =>
          match items.mapM parseRangeItem with
          | some parsedItems =>
              some (.obj [("package", .str p), ("start", .str s),
                ("end", .str e), ("downloads", .arr parsedItems)])
          | none => none
      | _, _, _, _ => none
  | _ => none

/-- `NpmDownloadCountClient.#parseObjectWithSchema` with the schema
`#request` selects for the request type (`NpmAPIPointResponseSchema` for
`'point'`, `NpmAPIRangeResponseSchema` for `'range'`): `schema.parse` either
returns the parsed object or throws, and the catch block rethrows a
`ValidationError` with message `Object shape is not valid.`. -/
def parseObjectWithSchema (requestType : RequestType) (object : Json) :
    Except ClientError Json :=
  let parsed :=
    match requestType with
    | .point => parsePointSchema object
    | .range => parseRangeSchema object
  match parsed with
  | some value => .ok value
  | none => .error (.validation "Object shape is not valid.")

/-- `Promise.all` over the dispatched per-path requests, value-level: all
fulfilled gives the list of results in input order; otherwise the rejection
surfaces.  (At run time the surfaced rejection is the first to settle; the
embedding deterministically takes the first in list order.) -/
def promiseAll : List (Except ClientError Json) → Except ClientError (List Json)
  | [] => .ok []
  | .error e :: _ => .error e
  | .ok v :: rest =>
      match promiseAll rest with
      | .error e => .error e
      | .ok vs => .ok (v :: vs)

/-- The `responses.map((response) => this.#parseObjectWithSchema(...))` step
of `#request`: a synchronous map in which the first thrown `ValidationError`
propagates. -/
def parseAll (requestType : RequestType) : List Json → Except ClientError (List Json)
  | [] => .ok []
  | r :: rest =>
      match parseObjectWithSchema requestType r with
      | .error e => .error e
      | .ok v =>
          match parseAll requestType rest with
          | .error e => .error e
          | .ok vs => .ok (v :: vs)

/-- One dispatched request: `this.#requestService.request({ path })`, with a
service-thrown error carried into the facade's error type.  The response
behaviour of the remote (or of a custom request service) is abstracted as
the function `fetchPath` from the path to the settled result. -/
def serviceCall (fetchPath : String → Except RequestError Json) (path : String) :
    Except ClientError Json :=
  match fetchPath path with
  | .ok v => .ok v
  | .error e => .error (.requestFailure e)

/-- The body of `NpmDownloadCountClient.#request`'s try block: dispatch every
path, await them all, then validate each response against the selected
schema. -/
def rawRequest (fetchPath : String → Except RequestError Json)
    (paths : List String) (requestType : RequestType) :
    Except ClientError (List Json) :=
  match promiseAll (paths.map (serviceCall fetchPath)) with
  | .error e => .error e
  | .ok responses => parseAll requestType responses

/-- The outward-facing message of the error `#request` raises on any failure. -/
def npmApiErrorMessage : String :=
  "Unable to get downloads stats from the npm API"

/-- `NpmDownloadCountClient.#request`: the try block's result, with any
failure caught and rethrown as
`new Error('Unable to get downloads stats from the npm API', { cause: err })`. -/
def clientRequest (fetchPath : String → Except RequestError Json)
    (paths : List String) (requestType : RequestType) :
    Except ClientError (List Json) :=
  match rawRequest fetchPath paths requestType with
  | .ok value => .ok value
  | .error err => .error (.wrapped npmApiErrorMessage err)

/-! ## Client facade: the public operations

Each public method computes its request paths (via `#makeRequestPaths`,
the week methods first resolving dates via `#getStartAndEndDatesForWeek`)
and returns `this.#request(paths, type)`.
-/

/-- A facade operation together with its arguments.  Date-valued arguments
are carried as the already-constructed `Date` values (`getDay` applies
`new Date(date)` and `getBetweenDates` applies `parseISO` to string inputs
before any modelled logic runs). -/
inductive FacadeOp where
  | getDay (packages : List String) (date : JsDate)
  | getWeek (packages : List String) (week : WeekInput) (startOfWeek : StartOfWeek)
  | getBetweenDates (packages : List String) (startDate endDate : JsDate)
  | getLastDay (packages : List String)
  | getLastWeek (packages : List String)
  | getLastMonth (packages : List String)
  | getDailyDownloadsForWeek (packages : List String) (week : WeekInput)
      (startOfWeek : StartOfWeek)
  | getDailyDownloadsForLastWeek (packages : List String)
  | getDailyDownloadsForLastMonth (packages : List String)

/-- The `packages` argument of an operation. -/
def FacadeOp.packages : FacadeOp → List String
  | .getDay pkgs _ => pkgs
  | .getWeek pkgs _ _ => pkgs
  | .getBetweenDates pkgs _ _ => pkgs
  | .getLastDay pkgs => pkgs
  | .getLastWeek pkgs => pkgs
  | .getLastMonth pkgs => pkgs
  | .getDailyDownloadsForWeek pkgs _ _ => pkgs
  | .getDailyDownloadsForLastWeek pkgs => pkgs
  | .getDailyDownloadsForLastMonth pkgs => pkgs

/-- The request type each operation passes to `#request`, per the source. -/
def FacadeOp.requestType : FacadeOp → RequestType
  | .getDay _ _ => .point
  | .getWeek _ _ _ => .point
  | .getBetweenDates _ _ _ => .point
  | .getLastDay _ => .point
  | .getLastWeek _ => .point
  | .getLastMonth _ => .point
  | .getDailyDownloadsForWeek _ _ _ => .range
  | .getDailyDownloadsForLastWeek _ => .range
  | .getDailyDownloadsForLastMonth _ => .range

/-- The request paths built for a week method: the resolved start/end day
numbers viewed as civil dates feed `#makeRequestPaths`; when resolution
produced `Invalid Date`, JavaScript renders each date component as `NaN`. -/
def weekPaths (currentYear : Int) (packages : List String) (week : WeekInput)
    (startOfWeek : StartOfWeek) (requestType : RequestType) : List String :=
  match getStartAndEndDatesForWeek currentYear week startOfWeek with
  | some (s, e) =>
      makeRequestPaths
        ⟨packages, requestType, .dateRange (civilFromDays s) (civilFromDays e)⟩
  | none =>
      packages.map
        (fun packageName =>
          "/" ++ requestType.render ++ "/NaN-NaN-NaN:NaN-NaN-NaN/" ++ packageName)

/-- The request paths each operation builds before calling `#request`.
`currentYear` stands for `new Date().getFullYear()` during week resolution. -/
def FacadeOp.paths (currentYear : Int) : FacadeOp → List String
  | .getDay pkgs date => makeRequestPaths ⟨pkgs, .point, .singleDate date⟩
  | .getWeek pkgs week sow => weekPaths currentYear pkgs week sow .point
  | .getBetweenDates pkgs s e => makeRequestPaths ⟨pkgs, .point, .dateRange s e⟩
  | .getLastDay pkgs => makeRequestPaths ⟨pkgs, .point, .keyword .lastDay⟩
  | .getLastWeek pkgs => makeRequestPaths ⟨pkgs, .point, .keyword .lastWeek⟩
  | .getLastMonth pkgs => makeRequestPaths ⟨pkgs, .point, .keyword .lastMonth⟩
  | .getDailyDownloadsForWeek pkgs week sow =>
      weekPaths currentYear pkgs week sow .range
  | .getDailyDownloadsForLastWeek pkgs =>
      makeRequestPaths ⟨pkgs, .range, .keyword .lastWeek⟩
  | .getDailyDownloadsForLastMonth pkgs =>
      makeRequestPaths ⟨pkgs, .range, .keyword .lastMonth⟩

/-- A facade operation run to its settled result: every public method
returns `await this.#request(paths, type)` on its computed paths. -/
def FacadeOp.run (op : FacadeOp) (currentYear : Int)
    (fetchPath : String → Except RequestError Json) :
    Except ClientError (List Json) :=
  clientRequest fetchPath (op.paths currentYear) op.requestType

/-- The `when` fragment of a week method's paths, split out so the per-package
path shape can be stated uniformly. -/
def weekWhenFragment (currentYear : Int) (week : WeekInput)
    (startOfWeek : StartOfWeek) : String :=
  match getStartAndEndDatesForWeek currentYear week startOfWeek with
  | some (s, e) =>
      singleDateFragment (civilFromDays s) ++ ":" ++ singleDateFragment (civilFromDays e)
  | none => "NaN-NaN-NaN:NaN-NaN-NaN"

/-- The `when` fragment each operation's paths interpolate between the
request type and the package name. -/
def FacadeOp.whenFragment (currentYear : Int) : FacadeOp → String
  | .getDay _ date => singleDateFragment date
  | .getWeek _ week sow => weekWhenFragment currentYear week sow
  | .getBetweenDates _ s e => singleDateFragment s ++ ":" ++ singleDateFragment e
  | .getLastDay _ => "last-day"
  | .getLastWeek _ => "last-week"
  | .getLastMonth _ => "last-month"
  | .getDailyDownloadsForWeek _ week sow => weekWhenFragment currentYear week sow
  | .getDailyDownloadsForLastWeek _ => "last-week"
  | .getDailyDownloadsForLastMonth _ => "last-month"

/-- Whether a query-parameter value is `undefined` or `null` (the values the
serializer skips). -/
def JsParamValue.isNullish : JsParamValue → Bool
  | .undef => true
  | .null => true
  | _ => false

/-- The decimal digit character for a value below 10, used to quantify over
the digit strings fed to the week resolver. -/
def mkDigit (v : Nat) : Char :=
  Char.ofNat (48 + v)

/-- The start day every token of ISO week `n` of `year` resolves to under a
given `startOfWeek` option: `startOfWeek` applied to the day `parseISO` gives
for the week string (the ISO Monday of that week). -/
def resolvedWeekStart (sow : StartOfWeek) (year : Int) (n : Nat) : Int :=
  startOfWeekNum sow.weekStartsOn (dayOfISOWeekYear year ((n : Int) - 1) 0)

/-! ## Helper lemmas -/

theorem toNat_ofNat_or_zero (n : Nat) :
    (Char.ofNat n).toNat = n ∨ (Char.ofNat n).toNat = 0 := by
  unfold Char.ofNat
  split
  · left; rfl
  · right; rfl

theorem hexDigit_ne_qmark (m : Nat) : hexDigit m ≠ '?' := by
  have hq : Char.toNat '?' = 63 := rfl
  unfold hexDigit
  split
  · intro hc
    have h := congrArg Char.toNat hc
    rw [hq] at h
    rcases toNat_ofNat_or_zero (48 + m) with h0 | h0 <;> rw [h0] at h <;> omega
  · intro hc
    have h := congrArg Char.toNat hc
    rw [hq] at h
    rcases toNat_ofNat_or_zero (55 + m) with h0 | h0 <;> rw [h0] at h <;> omega

theorem qmark_not_mem_percentByte (b : Nat) : '?' ∉ percentByte b := by
  intro h
  simp only [percentByte, List.mem_cons, List.not_mem_nil, or_false] at h
  rcases h with h | h | h
  · exact absurd h (by decide)
  · exact hexDigit_ne_qmark (b / 16) h.symm
  · exact hexDigit_ne_qmark (b % 16) h.symm

theorem qmark_not_mem_percentFold (bs : List Nat) :
    '?' ∉ bs.foldr (fun b bacc => percentByte b ++ bacc) [] := by
  induction bs with
  | nil => simp
  | cons b rest ih =>
      simp only [List.foldr_cons, List.mem_append]
      rintro (h | h)
      · exact qmark_not_mem_percentByte b h
      · exact ih h

theorem qmark_not_mem_formEncode (s : String) : '?' ∉ (formEncode s).data := by
  unfold formEncode
  show '?' ∉ _
  generalize s.toList = l
  induction l with
  | nil => simp
  | cons c rest ih =>
      simp only [List.foldr_cons, List.mem_append]
      rintro (h | h)
      · revert h
        split
        · next hu =>
            intro h
            rw [List.mem_singleton] at h
            subst h
            exact absurd hu (by decide)
        · split
          · intro h
            rw [List.mem_singleton] at h
            exact absurd h (by decide)
          · intro h
            exact qmark_not_mem_percentFold _ h
      · exact ih h

theorem makeRequestPaths_keyword (packages : List String) (rt : RequestType)
    (kw : RequestKeyword) :
    makeRequestPaths ⟨packages, rt, .keyword kw⟩ =
      packages.map (fun p => "/" ++ rt.render ++ "/" ++ kw.render ++ "/" ++ p) := rfl

theorem makeRequestPaths_singleDate (packages : List String) (rt : RequestType)
    (date : JsDate) :
    makeRequestPaths ⟨packages, rt, .singleDate date⟩ =
      packages.map
        (fun p => "/" ++ rt.render ++ "/" ++ singleDateFragment date ++ "/" ++ p) := rfl

theorem makeRequestPaths_dateRange (packages : List String) (rt : RequestType)
    (s e : JsDate) :
    makeRequestPaths ⟨packages, rt, .dateRange s e⟩ =
      packages.map
        (fun p => "/" ++ rt.render ++ "/" ++
          (singleDateFragment s ++ ":" ++ singleDateFragment e) ++ "/" ++ p) := rfl

theorem qmark_not_mem_render (pairs : List (String × String)) :
    '?' ∉ (renderSearchParams pairs).data := by
  induction pairs with
  | nil => simp [renderSearchParams]
  | cons kv rest ih =>
      cases rest with
      | nil =>
          simp only [renderSearchParams, String.data_append, List.mem_append]
          rintro ((h | h) | h)
          · exact qmark_not_mem_formEncode kv.1 h
          · exact absurd h (by decide)
          · exact qmark_not_mem_formEncode kv.2 h
      | cons kv2 rest2 =>
          simp only [renderSearchParams, String.data_append, List.mem_append]
          rintro ((((h | h) | h) | h) | h)
          · exact qmark_not_mem_formEncode kv.1 h
          · exact absurd h (by decide)
          · exact qmark_not_mem_formEncode kv.2 h
          · exact absurd h (by decide)
          · exact ih h

theorem isRetriableCode_not_ok (s : Nat) (h : isRetriableCode s = true) :
    responseOk s = false := by
  simp only [isRetriableCode, Bool.or_eq_true, beq_iff_eq] at h
  rcases h with ((h | h) | h) | h <;> subst h <;> decide

/-- On a server that answers every attempt with a retriable status, the call
makes `maxRetries - count + 1` fetch attempts, waits `delay` before each
retry, fails with the max-retries error, and leaves the counter at
`max count maxRetries` — not at zero. -/
theorem requestFrom_all_retriable (server : Nat → HttpResponse)
    (hs : ∀ n, isRetriableCode (server n).status = true) :
    ∀ (k : Nat) (st : RequestRetry) (a : Nat), st.maxRetries - st.count = k →
      requestFrom server st a =
        ⟨.error .maxRetriesExceeded, max st.count st.maxRetries,
          st.maxRetries - st.count + 1,
          List.replicate (st.maxRetries - st.count) st.delay⟩ := by
  intro k
  induction k with
  | zero =>
      intro st a hk
      have hok := isRetriableCode_not_ok _ (hs a)
      have h2 : ¬ st.count < st.maxRetries := by omega
      have h1 : st.maxRetries ≤ st.count := by omega
      rw [requestFrom]
      simp [hok, hs a, h2, h1, Nat.max_eq_left h1, hk]
  | succ k ih =>
      intro st a hk
      have hok := isRetriableCode_not_ok _ (hs a)
      have hlt : st.count < st.maxRetries := by omega
      have hrec := ih { st with count := st.count + 1 } (a + 1) (by simp; omega)
      have hrep : st.maxRetries - st.count = (st.maxRetries - (st.count + 1)) + 1 := by
        omega
      rw [requestFrom]
      simp [hok, hs a, hlt, hrec, RequestOutcome.mk.injEq]
      refine ⟨by omega, by omega, ?_⟩
      rw [hrep, List.replicate_succ]

/-! ## Claims about retry exhaustion (C2, C3) -/

/-- Claim C2: with retry bound `maxRetries` on a fresh instance, a server
answering every attempt with a retriable status causes exactly
`maxRetries + 1` fetch attempts — the initial one plus `maxRetries` retries,
each preceded by the configured delay — and failure with the
max-retries-exceeded error; in particular `maxRetries = 2` fails after
exactly 3 attempts. -/
theorem claim_C2_retry_exhaustion (maxRetries delayMs : Nat)
    (server : Nat → HttpResponse)
    (hs : ∀ n, isRetriableCode (server n).status = true) :
    (requestFresh server maxRetries delayMs).fetchCount = maxRetries + 1 ∧
    (requestFresh server maxRetries delayMs).result = .error .maxRetriesExceeded ∧
    (requestFresh server maxRetries delayMs).delays =
      List.replicate maxRetries delayMs ∧
    RequestError.maxRetriesExceeded.message =
      "API endpoint failed to provide a valid response, max retries exceeded" ∧
    (maxRetries = 2 → (requestFresh server maxRetries delayMs).fetchCount = 3) := by
  have h := requestFrom_all_retriable server hs (maxRetries - 0)
    ⟨0, maxRetries, delayMs⟩ 0 rfl
  unfold requestFresh
  rw [h]
  refine ⟨by simp, rfl, by simp, rfl, ?_⟩
  intro h2
  simp [h2]

/-- Witness for claim C2 at a concrete input: `maxRetries = 2`, a server
always replying 500 — three attempts, two delays, max-retries error. -/
theorem claim_C2_witness :
    (requestFresh (fun _ => ⟨500, none⟩) 2 7).fetchCount = 3 ∧
    (requestFresh (fun _ => ⟨500, none⟩) 2 7).result = .error .maxRetriesExceeded ∧
    (requestFresh (fun _ => ⟨500, none⟩) 2 7).delays = [7, 7] := by
  have h := claim_C2_retry_exhaustion 2 7 (fun _ => ⟨500, none⟩) (fun _ => rfl)
  exact ⟨h.2.2.2.2 rfl, h.2.1, h.2.2.1⟩

/-- Claim C3 (refuting evaluation): the retry attempt counter is NOT back at
zero after every terminal outcome.  With `maxRetries = 2` and a server always
replying 500, the call terminates with the max-retries-exceeded error but
leaves the instance counter at 2 (the throw on lines 80–83 of
src/RequestService.ts happens before the reset on line 85 is reached), so a
later independent call on the same instance — here, one more always-500
call — fails immediately after a single attempt instead of enjoying a full
retry budget. -/
theorem claim_C3_counter_left_dirty_after_exhaustion :
    (requestFresh (fun _ => ⟨500, none⟩) 2 0).result = .error .maxRetriesExceeded ∧
    (requestFresh (fun _ => ⟨500, none⟩) 2 0).finalCount = 2 ∧
    (requestFresh (fun _ => ⟨500, none⟩) 2 0).finalCount ≠ 0 ∧
    requestFrom (fun _ => ⟨500, none⟩) ⟨2, 2, 0⟩ 0 =
      ⟨.error .maxRetriesExceeded, 2, 1, []⟩ := by
  have h := requestFrom_all_retriable (fun _ => ⟨500, none⟩) (fun _ => rfl) 2
    ⟨0, 2, 0⟩ 0 rfl
  have h2 := requestFrom_all_retriable (fun _ => ⟨500, none⟩) (fun _ => rfl) 0
    ⟨2, 2, 0⟩ 0 rfl
  unfold requestFresh
  rw [h]
  exact ⟨rfl, rfl, by decide, h2⟩

/-! ## Claims about query-parameter serialization (C6, C7, C8) -/

/-- Claim C6: the query-parameter mapping `{foo: 'bar@', baz: 1, bar: undefined}`
serializes to exactly `foo=bar%40&baz=1` (and `?foo=bar%40&baz=1` once the
caller's `?` is prepended): null/undefined-valued keys are omitted, the `@`
of the string value is escaped to `%40`, and the numeric value is kept bare;
in general, serialization ignores exactly the null/undefined entries. -/
theorem claim_C6_query_serialization :
    renderSearchParams (serializeQueryParams
      [("foo", JsParamValue.str "bar@"), ("baz", JsParamValue.num 1),
        ("bar", JsParamValue.undef)]) = "foo=bar%40&baz=1" ∧
    queryFragment (some
      [("foo", JsParamValue.str "bar@"), ("baz", JsParamValue.num 1),
        ("bar", JsParamValue.undef)]) = "?foo=bar%40&baz=1" ∧
    ∀ params : List (String × JsParamValue),
      serializeQueryParams params =
        serializeQueryParams (params.filter (fun kv => !kv.2.isNullish)) := by
  refine ⟨by rfl, by rfl, ?_⟩
  intro params
  induction params with
  | nil => rfl
  | cons kv rest ih =>
      obtain ⟨k, v⟩ := kv
      cases v <;>
        simp [serializeQueryParams, appendedPairs, JsParamValue.isNullish] at ih ⊢ <;>
        exact ih

/-- Claim C7 counterexample: a request whose `queryParams` mapping contains
only an `undefined` value still gets a `?` appended — the URL built for
`fetch` ends in a dangling `?`, contrary to the claim that no `?` is
prepended when the effective parameter set is empty. -/
theorem claim_C7_counterexample :
    requestUrl "/downloads" "" (some [("bar", JsParamValue.undef)]) = "/downloads?" ∧
    ("/downloads?").data.getLast? = some '?' := by
  exact ⟨rfl, rfl⟩

/-- Claim C7 (amended): the serialized query string itself never contains a
`?` (in particular it carries no leading one), and the `?` is prepended to
the request path exactly when a `queryParams` mapping is supplied — even
when every value in it is null/undefined, in which case the path ends in a
dangling `?`. -/
theorem claim_C7_query_mark_placement :
    (∀ basePath path, requestUrl basePath path none = basePath ++ path) ∧
    (∀ basePath path ps, requestUrl basePath path (some ps) =
      basePath ++ path ++ ("?" ++ renderSearchParams (serializeQueryParams ps))) ∧
    (∀ pairs : List (String × String), '?' ∉ (renderSearchParams pairs).data) := by
  refine ⟨?_, ?_, qmark_not_mem_render⟩
  · intro basePath path
    simp [requestUrl, queryFragment]
  · intro basePath path ps
    rfl

/-- Claim C8 counterexample: a bigint value beyond the float-safe range is
not serialized at all — the serializer appends nothing for it, instead of
emitting the key with the full decimal digits. -/
theorem claim_C8_counterexample :
    serializeQueryParams [("a", JsParamValue.bigint 18446744073709551616)] = [] ∧
    renderSearchParams
        (serializeQueryParams [("a", JsParamValue.bigint 18446744073709551616)]) ≠
      "a=18446744073709551616" := by
  refine ⟨rfl, ?_⟩
  intro h
  exact absurd h (by decide)

/-- Claim C8 (amended): a bigint parameter value is omitted entirely from the
query string — `typeof value === 'number'` is false for a bigint and
`value instanceof BigInt` is false for every bigint primitive, so no branch
appends it (the repository's test expects `BigInt(42)` to be dropped) —
while a number value is kept, stringified exactly. -/
theorem claim_C8_bigint_omitted :
    (∀ (key : String) (n : Int) (params : List (String × JsParamValue)),
      serializeQueryParams ((key, JsParamValue.bigint n) :: params) =
        serializeQueryParams params) ∧
    (∀ (key : String) (n : Int) (params : List (String × JsParamValue)),
      serializeQueryParams ((key, JsParamValue.num n) :: params) =
        (key, toString n) :: serializeQueryParams params) := by
  constructor <;> intro key n params <;> rfl

/-! ## Claims about the retry loop (C9) -/

/-- Claim C9: a response whose status is neither 2xx nor one of the retriable
codes (500, 502, 503, 504) makes `request()` fail after exactly one fetch
attempt, with no delay, with message `API endpoint returned status code
<code>` — whatever retry state the instance was in. -/
theorem claim_C9_nonretriable_fails_immediately
    (st : RequestRetry) (server : Nat → HttpResponse) (code : Nat)
    (hok : responseOk code = false) (hre : isRetriableCode code = false)
    (hs : (server 0).status = code) :
    requestFrom server st 0 = ⟨.error (.badStatus code), 0, 1, []⟩ ∧
    (RequestError.badStatus code).message =
      "API endpoint returned status code " ++ toString code := by
  refine ⟨?_, rfl⟩
  rw [requestFrom]
  simp [hs, hok, hre]

/-- Witness for claim C9 at a concrete input: a 401 response on a fresh
default-configured instance fails after one attempt with the exact message
`API endpoint returned status code 401`. -/
theorem claim_C9_witness :
    requestFrom (fun _ => ⟨401, none⟩) ⟨0, 3, 1000⟩ 0 =
      ⟨.error (.badStatus 401), 0, 1, []⟩ ∧
    (RequestError.badStatus 401).message = "API endpoint returned status code 401" :=
  claim_C9_nonretriable_fails_immediately ⟨0, 3, 1000⟩ (fun _ => ⟨401, none⟩) 401
    (by decide) (by decide) rfl

theorem promiseAll_ok_eq (l : List (Except ClientError Json)) (vs : List Json)
    (h : promiseAll l = .ok vs) : l = vs.map Except.ok := by
  induction l generalizing vs with
  | nil =>
      simp only [promiseAll, Except.ok.injEq] at h
      subst h
      rfl
  | cons r rest ih =>
      cases r with
      | error e => simp [promiseAll] at h
      | ok v =>
          simp only [promiseAll] at h
          cases hrec : promiseAll rest with
          | error e => rw [hrec] at h; simp at h
          | ok vs2 =>
              rw [hrec] at h
              simp only [Except.ok.injEq] at h
              subst h
              simp [ih vs2 hrec]

theorem promiseAll_error_of_mem (l : List (Except ClientError Json))
    (h : ∃ r ∈ l, ∃ e, r = .error e) : ∃ e, promiseAll l = .error e := by
  induction l with
  | nil => simp at h
  | cons r rest ih =>
      obtain ⟨r2, hr2, e, he⟩ := h
      rcases List.mem_cons.mp hr2 with h1 | h1
      · subst h1
        subst he
        exact ⟨e, rfl⟩
      · cases r with
        | error e2 => exact ⟨e2, rfl⟩
        | ok v =>
            obtain ⟨e3, he3⟩ := ih ⟨r2, h1, e, he⟩
            exact ⟨e3, by simp [promiseAll, he3]⟩

theorem parseAll_ok_forall₂ (rt : RequestType) (rs : List Json) (vs : List Json)
    (h : parseAll rt rs = .ok vs) :
    List.Forall₂ (fun r v => parseObjectWithSchema rt r = .ok v) rs vs := by
  induction rs generalizing vs with
  | nil =>
      simp only [parseAll, Except.ok.injEq] at h
      subst h
      exact List.Forall₂.nil
  | cons r rest ih =>
      simp only [parseAll] at h
      cases hp : parseObjectWithSchema rt r with
      | error e => rw [hp] at h; simp at h
      | ok v =>
          rw [hp] at h
          cases hrec : parseAll rt rest with
          | error e => rw [hrec] at h; simp at h
          | ok vs2 =>
              rw [hrec] at h
              simp only [Except.ok.injEq] at h
              subst h
              exact List.Forall₂.cons hp (ih vs2 hrec)

theorem serviceCall_ok (fetchPath : String → Except RequestError Json)
    (path : String) (v : Json) (h : serviceCall fetchPath path = .ok v) :
    fetchPath path = .ok v := by
  unfold serviceCall at h
  cases hf : fetchPath path with
  | ok v2 =>
      rw [hf] at h
      simp only [Except.ok.injEq] at h
      rw [h]
  | error e => rw [hf] at h; simp at h

/-- Every operation's path list is its package list mapped through the
uniform `/{type}/{when}/{package}` shape. -/
theorem FacadeOp.paths_eq (op : FacadeOp) (cy : Int) :
    op.paths cy = op.packages.map
      (fun p => "/" ++ op.requestType.render ++ "/" ++ op.whenFragment cy ++ "/" ++ p) := by
  cases op <;>
    simp only [FacadeOp.paths, FacadeOp.packages, FacadeOp.requestType,
      FacadeOp.whenFragment, weekPaths, weekWhenFragment,
      makeRequestPaths_keyword, makeRequestPaths_singleDate,
      makeRequestPaths_dateRange, RequestKeyword.render] <;>
    try rfl
  all_goals
    rename_i pkgs week sow
    cases hw : getStartAndEndDatesForWeek cy week sow with
    | none => rfl
    | some se => obtain ⟨s, e⟩ := se; rfl

/-! ## Claims about the facade pipeline (C1, C10) -/

/-- Claim C1: for every facade operation, whenever the underlying dispatched
work fails — a request-service error (bad status, retry exhaustion, non-JSON
body) or a schema validation failure — the operation fails with the single
error whose message is exactly `Unable to get downloads stats from the npm
API` and whose cause is the original underlying error; conversely every
failure of an operation has exactly that shape, and a failing dispatched
request always makes the underlying work fail. -/
theorem claim_C1_facade_wraps_failures (op : FacadeOp) (cy : Int)
    (fetchPath : String → Except RequestError Json) :
    (∀ e, rawRequest fetchPath (op.paths cy) op.requestType = .error e →
      op.run cy fetchPath =
        .error (.wrapped "Unable to get downloads stats from the npm API" e)) ∧
    (∀ res, op.run cy fetchPath = .error res →
      ∃ e, res = .wrapped "Unable to get downloads stats from the npm API" e ∧
        rawRequest fetchPath (op.paths cy) op.requestType = .error e) ∧
    ((∃ p ∈ op.paths cy, ∃ re, fetchPath p = .error re) →
      ∃ e, rawRequest fetchPath (op.paths cy) op.requestType = .error e) := by
  refine ⟨?_, ?_, ?_⟩
  · intro e he
    unfold FacadeOp.run clientRequest
    rw [he]
    rfl
  · intro res hres
    unfold FacadeOp.run clientRequest at hres
    cases hraw : rawRequest fetchPath (op.paths cy) op.requestType with
    | ok v => rw [hraw] at hres; simp at hres
    | error e =>
        rw [hraw] at hres
        simp only [Except.error.injEq] at hres
        exact ⟨e, hres.symm, rfl⟩
  · rintro ⟨p, hp, re, hre⟩
    have hmem : Except.error (ClientError.requestFailure re) ∈
        (op.paths cy).map (serviceCall fetchPath) := by
      refine List.mem_map.mpr ⟨p, hp, ?_⟩
      unfold serviceCall
      rw [hre]
    obtain ⟨e, he⟩ := promiseAll_error_of_mem _ ⟨_, hmem, _, rfl⟩
    refine ⟨e, ?_⟩
    unfold rawRequest
    rw [he]

/-- Witness for claim C1 at a concrete input: a `getDay` call whose (single)
response lacks the `package` field fails with the wrapped error whose cause
is the validation error — the spec's facade-validation scenario. -/
theorem claim_C1_witness :
    (FacadeOp.getDay ["pkg"] ⟨2023, 5, 1⟩).run 2023
      (fun _ => .ok (.obj [("downloads", .num 3), ("start", .str "2023-05-01"),
        ("end", .str "2023-05-01")])) =
      .error (.wrapped "Unable to get downloads stats from the npm API"
        (.validation "Object shape is not valid.")) := by
  exact (claim_C1_facade_wraps_failures (.getDay ["pkg"] ⟨2023, 5, 1⟩) 2023
    (fun _ => .ok (.obj [("downloads", .num 3), ("start", .str "2023-05-01"),
      ("end", .str "2023-05-01")]))).1
    (.validation "Object shape is not valid.") rfl

/-- Claim C10: a successful multi-package facade call returns exactly one
record per requested package, and the i-th returned record is the validated
response fetched from the path built for the i-th package — output order
follows input package order. -/
theorem claim_C10_output_order (op : FacadeOp) (cy : Int)
    (fetchPath : String → Except RequestError Json) (results : List Json)
    (h : op.run cy fetchPath = .ok results) :
    results.length = op.packages.length ∧
    ∀ i, i < results.length →
      ∃ p raw r, op.packages[i]? = some p ∧ results[i]? = some r ∧
        fetchPath ("/" ++ op.requestType.render ++ "/" ++ op.whenFragment cy ++
          "/" ++ p) = .ok raw ∧
        parseObjectWithSchema op.requestType raw = .ok r := by
  have hraw : rawRequest fetchPath (op.paths cy) op.requestType = .ok results := by
    unfold FacadeOp.run clientRequest at h
    cases hx : rawRequest fetchPath (op.paths cy) op.requestType with
    | ok v => rw [hx] at h; simpa using h
    | error e => rw [hx] at h; simp at h
  unfold rawRequest at hraw
  cases hp : promiseAll ((op.paths cy).map (serviceCall fetchPath)) with
  | error e => rw [hp] at hraw; simp at hraw
  | ok responses =>
      rw [hp] at hraw
      replace hraw : parseAll op.requestType responses = .ok results := hraw
      have hmap := promiseAll_ok_eq _ _ hp
      have hfa := parseAll_ok_forall₂ _ _ _ hraw
      have hlen1 : responses.length = (op.paths cy).length := by
        have hl := congrArg List.length hmap
        simpa using hl.symm
      have hlen2 : results.length = responses.length :=
        hfa.length_eq.symm
      have hlen3 : (op.paths cy).length = op.packages.length := by
        rw [FacadeOp.paths_eq]
        simp
      refine ⟨by omega, ?_⟩
      intro i hi
      have hip : i < op.packages.length := by omega
      have hpkg : op.packages[i]? = some op.packages[i] :=
        List.getElem?_eq_getElem hip
      have hresp : responses[i]? = some responses[i] :=
        List.getElem?_eq_getElem (by omega)
      have hres : results[i]? = some results[i] :=
        List.getElem?_eq_getElem hi
      refine ⟨op.packages[i], responses[i], results[i], hpkg, hres, ?_, ?_⟩
      · -- the i-th dispatched call succeeded with the i-th response
        have hmi := congrArg (fun l => l[i]?) hmap
        simp only [List.getElem?_map] at hmi
        rw [FacadeOp.paths_eq] at hmi
        simp only [List.getElem?_map, hpkg, hresp] at hmi
        simp only [Option.map_some', Option.some.injEq] at hmi
        exact serviceCall_ok _ _ _ hmi
      · -- the i-th response validated to the i-th result
        have hg := (List.forall₂_iff_get.mp hfa).2 i (by omega) (by omega)
        exact hg

/-! ## Week-resolution lemmas (toward C5) -/

theorem mkDigit_isDigit (v : Nat) (h : v ≤ 9) : (mkDigit v).isDigit = true := by
  interval_cases v <;> decide

theorem digitVal_mkDigit (v : Nat) (h : v ≤ 9) : digitVal (mkDigit v) = v := by
  interval_cases v <;> decide

theorem mkDigit_toUpper_ne_W (v : Nat) (h : v ≤ 9) :
    ((mkDigit v).toUpper == 'W') = false := by
  interval_cases v <;> decide

theorem mkDigit_ne_dash (v : Nat) (h : v ≤ 9) : mkDigit v ≠ '-' := by
  interval_cases v <;> decide

theorem mkDigit_ne_W (v : Nat) (h : v ≤ 9) : mkDigit v ≠ 'W' := by
  interval_cases v <;> decide

theorem weekStartsOn_nonneg (sow : StartOfWeek) : 0 ≤ sow.weekStartsOn := by
  cases sow <;> decide

theorem weekStartsOn_le_six (sow : StartOfWeek) : sow.weekStartsOn ≤ 6 := by
  cases sow <;> decide

theorem endOfWeekNum_eq_start_add_six (wss z : Int) :
    endOfWeekNum wss z = startOfWeekNum wss z + 6 := by
  unfold endOfWeekNum startOfWeekNum dayOfWeek
  split_ifs <;> omega

theorem dayOfWeek_startOfWeekNum (wss z : Int) (h0 : 0 ≤ wss) (h6 : wss ≤ 6) :
    dayOfWeek (startOfWeekNum wss z) = wss := by
  unfold startOfWeekNum dayOfWeek
  split_ifs <;> omega

theorem startOfWeekNum_stable (wss z d : Int) (h0 : 0 ≤ wss) (h6 : wss ≤ 6)
    (h1 : startOfWeekNum wss z ≤ d) (h2 : d ≤ startOfWeekNum wss z + 6) :
    startOfWeekNum wss d = startOfWeekNum wss z := by
  unfold startOfWeekNum dayOfWeek at h1 h2 ⊢
  split_ifs at h1 h2 ⊢ <;> omega

theorem stripDash_cons_of_ne (c : Char) (rest : List Char) (h : c ≠ '-') :
    stripDash (c :: rest) = c :: rest := by
  unfold stripDash
  split
  · next heq =>
      injection heq with h1 h2
      exact absurd h1 h
  · rfl

theorem parseYearPart_four_digits (c1 c2 c3 c4 : Char) (rest : List Char)
    (h1 : c1.isDigit = true) (h2 : c2.isDigit = true)
    (h3 : c3.isDigit = true) (h4 : c4.isDigit = true) :
    parseYearPart (c1 :: c2 :: c3 :: c4 :: rest) =
      some (((((digitVal c1 * 10 + digitVal c2) * 10 + digitVal c3) * 10 +
        digitVal c4 : Nat) : Int), rest) := by
  unfold parseYearPart
  simp [h1, h2, h3, h4]

theorem parseDateTail_week (year : Int) (cw1 cw2 : Char)
    (h1 : cw1.isDigit = true) (h2 : cw2.isDigit = true)
    (hn1 : 1 ≤ digitVal cw1 * 10 + digitVal cw2)
    (hn53 : digitVal cw1 * 10 + digitVal cw2 ≤ 53) :
    parseDateTail year ('W' :: [cw1, cw2]) =
      some (dayOfISOWeekYear year
        (((digitVal cw1 * 10 + digitVal cw2 : Nat) : Int) - 1) 0) := by
  simp [parseDateTail, h1, h2]
  omega

theorem parseDateTail_month_day (year : Int) (cm1 cm2 cd1 cd2 : Char)
    (h1 : cm1.isDigit = true) (h2 : cm2.isDigit = true)
    (h3 : cd1.isDigit = true) (h4 : cd2.isDigit = true)
    (hw : cm1 ≠ 'W')
    (hm1 : 1 ≤ digitVal cm1 * 10 + digitVal cm2)
    (hm12 : digitVal cm1 * 10 + digitVal cm2 ≤ 12)
    (hd1 : 1 ≤ digitVal cd1 * 10 + digitVal cd2)
    (hdm : digitVal cd1 * 10 + digitVal cd2 ≤
      daysInMonth year (digitVal cm1 * 10 + digitVal cm2)) :
    parseDateTail year [cm1, cm2, '-', cd1, cd2] =
      some (daysFromCivil year ((digitVal cm1 * 10 + digitVal cm2 : Nat) : Int)
        ((digitVal cd1 * 10 + digitVal cd2 : Nat) : Int)) := by
  rw [parseDateTail.eq_def]
  split
  case h_1 => rename_i heq; simp at heq
  case h_2 =>
      rename_i heq
      simp only [List.cons.injEq] at heq
      exact absurd heq.1 hw
  case h_3 => rename_i heq; simp at heq
  case h_4 => rename_i heq; simp at heq
  case h_5 => rename_i heq; simp at heq
  case h_6 =>
      rename_i heq
      simp at heq
      obtain ⟨rfl, rfl, rfl, rfl⟩ := heq
      rw [if_pos (by rw [h1, h2, h3, h4]; rfl)]
      rw [if_pos]
      simp only [Bool.and_eq_true, decide_eq_true_eq]
      exact ⟨⟨⟨hm1, hm12⟩, hd1⟩, hdm⟩
  case h_7 =>
      rename_i hlast
      exact absurd rfl (hlast cm1 cm2 cd1 cd2)

theorem parseISO_four_digit_year (c1 c2 c3 c4 : Char) (rest : List Char)
    (h1 : c1.isDigit = true) (h2 : c2.isDigit = true)
    (h3 : c3.isDigit = true) (h4 : c4.isDigit = true) :
    parseISO (String.mk (c1 :: c2 :: c3 :: c4 :: rest)) =
      parseDateTail ((((digitVal c1 * 10 + digitVal c2) * 10 + digitVal c3) * 10 +
        digitVal c4 : Nat) : Int) (stripDash rest) := by
  unfold parseISO
  rw [show (String.mk (c1 :: c2 :: c3 :: c4 :: rest)).toList =
    c1 :: c2 :: c3 :: c4 :: rest from rfl]
  rw [parseYearPart_four_digits c1 c2 c3 c4 rest h1 h2 h3 h4]

theorem getWeekDates_dateObj (cy : Int) (sow : StartOfWeek) (z : Int) :
    getStartAndEndDatesForWeek cy (.dateObj z) sow =
      some (startOfWeekNum sow.weekStartsOn z, endOfWeekNum sow.weekStartsOn z) := rfl

theorem getWeekDates_str_noW (cy : Int) (sow : StartOfWeek) (s : String)
    (hW : toUpperStartsWithW s = false) (z : Int) (hp : parseISO s = some z) :
    getStartAndEndDatesForWeek cy (.str s) sow =
      some (startOfWeekNum sow.weekStartsOn z, endOfWeekNum sow.weekStartsOn z) := by
  unfold getStartAndEndDatesForWeek
  simp [hW, hp]

theorem getWeekDates_str_W (cy : Int) (sow : StartOfWeek) (s : String)
    (hW : toUpperStartsWithW s = true) (z : Int)
    (hp : parseISO (toString cy ++ s) = some z) :
    getStartAndEndDatesForWeek cy (.str s) sow =
      some (startOfWeekNum sow.weekStartsOn z, endOfWeekNum sow.weekStartsOn z) := by
  unfold getStartAndEndDatesForWeek
  simp [hW, hp]

theorem toUpperStartsWithW_cons (c : Char) (rest : List Char) :
    toUpperStartsWithW (String.mk (c :: rest)) = (c.toUpper == 'W') := rfl

/-! ## Claim about week-token resolution (C5) -/

/-- Claim C5: for every calendar week (ISO week `w1w2` of the 4-digit year
`y1y2y3y4`, with the current year equal to that year) and every
`startOfWeek` option, all token forms denoting that week resolve to the
identical start and end dates: the `<year>W<nn>` string, the `W<nn>` string
(year defaulting to the current year), a `Date` object lying in the resolved
span, and an ISO `YYYY-MM-DD` date string lying in the resolved span.  The
resolved pair is an inclusive 7-day span (`end = start + 6`) beginning on
the configured week-start day. -/
theorem claim_C5_week_token_forms_agree
    (sow : StartOfWeek) (cy : Int)
    (y1 y2 y3 y4 w1 w2 : Nat)
    (hy1 : y1 ≤ 9) (hy2 : y2 ≤ 9) (hy3 : y3 ≤ 9) (hy4 : y4 ≤ 9)
    (hw1 : w1 ≤ 9) (hw2 : w2 ≤ 9)
    (hcy : cy = ((((y1 * 10 + y2) * 10 + y3) * 10 + y4 : Nat) : Int))
    (hstr : toString cy =
      String.mk [mkDigit y1, mkDigit y2, mkDigit y3, mkDigit y4])
    (hn1 : 1 ≤ w1 * 10 + w2) (hn53 : w1 * 10 + w2 ≤ 53) :
    getStartAndEndDatesForWeek cy
        (.str (String.mk [mkDigit y1, mkDigit y2, mkDigit y3, mkDigit y4, 'W',
          mkDigit w1, mkDigit w2])) sow =
      some (resolvedWeekStart sow cy (w1 * 10 + w2),
        resolvedWeekStart sow cy (w1 * 10 + w2) + 6) ∧
    getStartAndEndDatesForWeek cy
        (.str (String.mk ['W', mkDigit w1, mkDigit w2])) sow =
      some (resolvedWeekStart sow cy (w1 * 10 + w2),
        resolvedWeekStart sow cy (w1 * 10 + w2) + 6) ∧
    (∀ z : Int, resolvedWeekStart sow cy (w1 * 10 + w2) ≤ z →
      z ≤ resolvedWeekStart sow cy (w1 * 10 + w2) + 6 →
      getStartAndEndDatesForWeek cy (.dateObj z) sow =
        some (resolvedWeekStart sow cy (w1 * 10 + w2),
          resolvedWeekStart sow cy (w1 * 10 + w2) + 6)) ∧
    (∀ e1 e2 e3 e4 m1 m2 d1 d2 : Nat,
      e1 ≤ 9 → e2 ≤ 9 → e3 ≤ 9 → e4 ≤ 9 → m1 ≤ 9 → m2 ≤ 9 → d1 ≤ 9 → d2 ≤ 9 →
      1 ≤ m1 * 10 + m2 → m1 * 10 + m2 ≤ 12 → 1 ≤ d1 * 10 + d2 →
      d1 * 10 + d2 ≤
        daysInMonth ((((e1 * 10 + e2) * 10 + e3) * 10 + e4 : Nat) : Int)
          (m1 * 10 + m2) →
      resolvedWeekStart sow cy (w1 * 10 + w2) ≤
        daysFromCivil ((((e1 * 10 + e2) * 10 + e3) * 10 + e4 : Nat) : Int)
          ((m1 * 10 + m2 : Nat) : Int) ((d1 * 10 + d2 : Nat) : Int) →
      daysFromCivil ((((e1 * 10 + e2) * 10 + e3) * 10 + e4 : Nat) : Int)
          ((m1 * 10 + m2 : Nat) : Int) ((d1 * 10 + d2 : Nat) : Int) ≤
        resolvedWeekStart sow cy (w1 * 10 + w2) + 6 →
      getStartAndEndDatesForWeek cy
          (.str (String.mk [mkDigit e1, mkDigit e2, mkDigit e3, mkDigit e4, '-',
            mkDigit m1, mkDigit m2, '-', mkDigit d1, mkDigit d2])) sow =
        some (resolvedWeekStart sow cy (w1 * 10 + w2),
          resolvedWeekStart sow cy (w1 * 10 + w2) + 6)) ∧
    dayOfWeek (resolvedWeekStart sow cy (w1 * 10 + w2)) = sow.weekStartsOn := by
  have hwss0 := weekStartsOn_nonneg sow
  have hwss6 := weekStartsOn_le_six sow
  have hisoA : parseISO (String.mk [mkDigit y1, mkDigit y2, mkDigit y3, mkDigit y4,
      'W', mkDigit w1, mkDigit w2]) =
      some (dayOfISOWeekYear cy (((w1 * 10 + w2 : Nat) : Int) - 1) 0) := by
    rw [parseISO_four_digit_year _ _ _ _ _ (mkDigit_isDigit y1 hy1)
      (mkDigit_isDigit y2 hy2) (mkDigit_isDigit y3 hy3) (mkDigit_isDigit y4 hy4)]
    rw [show stripDash ['W', mkDigit w1, mkDigit w2] =
      'W' :: [mkDigit w1, mkDigit w2] from rfl]
    rw [parseDateTail_week _ _ _ (mkDigit_isDigit w1 hw1) (mkDigit_isDigit w2 hw2)
      (by rw [digitVal_mkDigit w1 hw1, digitVal_mkDigit w2 hw2]; omega)
      (by rw [digitVal_mkDigit w1 hw1, digitVal_mkDigit w2 hw2]; omega)]
    rw [digitVal_mkDigit y1 hy1, digitVal_mkDigit y2 hy2, digitVal_mkDigit y3 hy3,
      digitVal_mkDigit y4 hy4, digitVal_mkDigit w1 hw1, digitVal_mkDigit w2 hw2,
      ← hcy]
  have hWnoA : toUpperStartsWithW (String.mk [mkDigit y1, mkDigit y2, mkDigit y3,
      mkDigit y4, 'W', mkDigit w1, mkDigit w2]) = false := by
    rw [toUpperStartsWithW_cons]
    exact mkDigit_toUpper_ne_W y1 hy1
  refine ⟨?_, ?_, ?_, ?_, ?_⟩
  · rw [getWeekDates_str_noW cy sow _ hWnoA _ hisoA,
      endOfWeekNum_eq_start_add_six]
    rfl
  · have hWyes : toUpperStartsWithW (String.mk ['W', mkDigit w1, mkDigit w2]) =
        true := by
      rw [toUpperStartsWithW_cons]
      decide
    have happ : toString cy ++ String.mk ['W', mkDigit w1, mkDigit w2] =
        String.mk [mkDigit y1, mkDigit y2, mkDigit y3, mkDigit y4, 'W',
          mkDigit w1, mkDigit w2] := by
      rw [hstr]
      rfl
    rw [getWeekDates_str_W cy sow _ hWyes _ (by rw [happ]; exact hisoA),
      endOfWeekNum_eq_start_add_six]
    rfl
  · intro z h1z h2z
    rw [getWeekDates_dateObj, endOfWeekNum_eq_start_add_six]
    unfold resolvedWeekStart at h1z h2z ⊢
    rw [startOfWeekNum_stable sow.weekStartsOn _ z hwss0 hwss6 h1z h2z]
  · intro e1 e2 e3 e4 m1 m2 d1 d2 he1 he2 he3 he4 hm1 hm2 hd1 hd2 hmth1 hmth12
      hdd1 hddm hlow hhigh
    have hisoD : parseISO (String.mk [mkDigit e1, mkDigit e2, mkDigit e3,
        mkDigit e4, '-', mkDigit m1, mkDigit m2, '-', mkDigit d1, mkDigit d2]) =
        some (daysFromCivil ((((e1 * 10 + e2) * 10 + e3) * 10 + e4 : Nat) : Int)
          ((m1 * 10 + m2 : Nat) : Int) ((d1 * 10 + d2 : Nat) : Int)) := by
      rw [parseISO_four_digit_year _ _ _ _ _ (mkDigit_isDigit e1 he1)
        (mkDigit_isDigit e2 he2) (mkDigit_isDigit e3 he3) (mkDigit_isDigit e4 he4)]
      rw [show stripDash ['-', mkDigit m1, mkDigit m2, '-', mkDigit d1, mkDigit d2]
        = [mkDigit m1, mkDigit m2, '-', mkDigit d1, mkDigit d2] from rfl]
      rw [parseDateTail_month_day _ _ _ _ _ (mkDigit_isDigit m1 hm1)
        (mkDigit_isDigit m2 hm2) (mkDigit_isDigit d1 hd1) (mkDigit_isDigit d2 hd2)
        (mkDigit_ne_W m1 hm1)
        (by rw [digitVal_mkDigit m1 hm1, digitVal_mkDigit m2 hm2]; omega)
        (by rw [digitVal_mkDigit m1 hm1, digitVal_mkDigit m2 hm2]; omega)
        (by rw [digitVal_mkDigit d1 hd1, digitVal_mkDigit d2 hd2]; omega)
        (by
          rw [digitVal_mkDigit m1 hm1, digitVal_mkDigit m2 hm2,
            digitVal_mkDigit d1 hd1, digitVal_mkDigit d2 hd2,
            digitVal_mkDigit e1 he1, digitVal_mkDigit e2 he2,
            digitVal_mkDigit e3 he3, digitVal_mkDigit e4 he4]
          exact hddm)]
      rw [digitVal_mkDigit e1 he1, digitVal_mkDigit e2 he2,
        digitVal_mkDigit e3 he3, digitVal_mkDigit e4 he4,
        digitVal_mkDigit m1 hm1, digitVal_mkDigit m2 hm2,
        digitVal_mkDigit d1 hd1, digitVal_mkDigit d2 hd2]
    have hWnoD : toUpperStartsWithW (String.mk [mkDigit e1, mkDigit e2, mkDigit e3,
        mkDigit e4, '-', mkDigit m1, mkDigit m2, '-', mkDigit d1, mkDigit d2]) =
        false := by
      rw [toUpperStartsWithW_cons]
      exact mkDigit_toUpper_ne_W e1 he1
    rw [getWeekDates_str_noW cy sow _ hWnoD _ hisoD,
      endOfWeekNum_eq_start_add_six]
    unfold resolvedWeekStart at hlow hhigh ⊢
    rw [startOfWeekNum_stable sow.weekStartsOn _ _ hwss0 hwss6 hlow hhigh]
  · exact dayOfWeek_startOfWeekNum sow.weekStartsOn _ hwss0 hwss6


/-- Claim C4: the single-date path fragment is the unpadded
`{year}-{month}-{day}` (so 2023-05-01 renders as `2023-5-1`), a date range
renders as the two unpadded dates joined by `:`, and each package gets
exactly the path `/{point|range}/{fragment}/{package}`. -/
theorem claim_C4_unpadded_date_fragments
    (y sy ey : Int) (m d sm sd em ed : Nat)
    (hm : 1 ≤ m) (hsm : 1 ≤ sm) (hem : 1 ≤ em)
    (packages : List String) (rt : RequestType) :
    makeRequestPaths ⟨packages, rt, .singleDate ⟨y, m, d⟩⟩ =
      packages.map (fun p => "/" ++ rt.render ++ "/" ++
        (toString y ++ "-" ++ toString m ++ "-" ++ toString d) ++ "/" ++ p) ∧
    makeRequestPaths ⟨packages, rt, .dateRange ⟨sy, sm, sd⟩ ⟨ey, em, ed⟩⟩ =
      packages.map (fun p => "/" ++ rt.render ++ "/" ++
        ((toString sy ++ "-" ++ toString sm ++ "-" ++ toString sd) ++ ":" ++
          (toString ey ++ "-" ++ toString em ++ "-" ++ toString ed)) ++ "/" ++ p) ∧
    singleDateFragment ⟨2023, 5, 1⟩ = "2023-5-1" := by
  have hfrag : ∀ (fy : Int) (fm fd : Nat), 1 ≤ fm →
      singleDateFragment ⟨fy, fm, fd⟩ =
        toString fy ++ "-" ++ toString fm ++ "-" ++ toString fd := by
    intro fy fm fd hfm
    unfold singleDateFragment JsDate.getFullYear JsDate.getMonth JsDate.getDate
    have : fm - 1 + 1 = fm := by omega
    rw [this]
  refine ⟨?_, ?_, rfl⟩
  · rw [makeRequestPaths_singleDate]
    simp only [hfrag y m d hm]
  · rw [makeRequestPaths_dateRange]
    simp only [hfrag sy sm sd hsm, hfrag ey em ed hem]

/-- Witness for claim C4 at a concrete input: the date 2023-05-01, two
packages, a point request. -/
theorem claim_C4_witness :
    makeRequestPaths ⟨["a", "b"], .point, .singleDate ⟨2023, 5, 1⟩⟩ =
      ["a", "b"].map (fun p => "/" ++ RequestType.point.render ++ "/" ++
        (toString (2023 : Int) ++ "-" ++ toString (5 : Nat) ++ "-" ++
          toString (1 : Nat)) ++ "/" ++ p) ∧
    singleDateFragment ⟨2023, 5, 1⟩ = "2023-5-1" := by
  have h := claim_C4_unpadded_date_fragments 2023 2020 2021 5 1 1 2 1 3
    (by decide) (by decide) (by decide) ["a", "b"] .point
  exact ⟨h.1, h.2.2⟩

/-- Witness for claim C10 at a concrete input: a two-package `getLastDay`
call against a service answering each path with a valid point record carrying
the path itself in the `package` field — the output lists the two validated
records in package order. -/
theorem claim_C10_witness :
    (FacadeOp.getLastDay ["a", "b"]).run 2023
        (fun p => .ok (.obj [("package", .str p), ("downloads", .num 1),
          ("start", .str "s"), ("end", .str "e")])) =
      .ok [.obj [("package", .str "/point/last-day/a"), ("downloads", .num 1),
          ("start", .str "s"), ("end", .str "e")],
        .obj [("package", .str "/point/last-day/b"), ("downloads", .num 1),
          ("start", .str "s"), ("end", .str "e")]] ∧
    ([Json.obj [("package", .str "/point/last-day/a"), ("downloads", .num 1),
        ("start", .str "s"), ("end", .str "e")],
      Json.obj [("package", .str "/point/last-day/b"), ("downloads", .num 1),
        ("start", .str "s"), ("end", .str "e")]]).length =
      (FacadeOp.getLastDay ["a", "b"]).packages.length := by
  have hrun : (FacadeOp.getLastDay ["a", "b"]).run 2023
      (fun p => .ok (.obj [("package", .str p), ("downloads", .num 1),
        ("start", .str "s"), ("end", .str "e")])) =
      .ok [.obj [("package", .str "/point/last-day/a"), ("downloads", .num 1),
          ("start", .str "s"), ("end", .str "e")],
        .obj [("package", .str "/point/last-day/b"), ("downloads", .num 1),
          ("start", .str "s"), ("end", .str "e")]] := rfl
  have h := claim_C10_output_order (FacadeOp.getLastDay ["a", "b"]) 2023
    (fun p => .ok (.obj [("package", .str p), ("downloads", .num 1),
      ("start", .str "s"), ("end", .str "e")])) _ hrun
  exact ⟨hrun, h.1⟩

/-- Witness for claim C5 at a concrete input: ISO week 20 of 2023, Monday
start.  The tokens `2023W20`, `W20` and a Date inside the span all resolve
to the same pair, which is 2023-05-15 through 2023-05-21 — the span the
repository's tests expect for these very tokens. -/
theorem claim_C5_witness :
    (getStartAndEndDatesForWeek 2023
        (.str (String.mk [mkDigit 2, mkDigit 0, mkDigit 2, mkDigit 3, 'W',
          mkDigit 2, mkDigit 0])) .monday =
      some (resolvedWeekStart .monday 2023 20,
        resolvedWeekStart .monday 2023 20 + 6)) ∧
    (getStartAndEndDatesForWeek 2023
        (.str (String.mk ['W', mkDigit 2, mkDigit 0])) .monday =
      some (resolvedWeekStart .monday 2023 20,
        resolvedWeekStart .monday 2023 20 + 6)) ∧
    (getStartAndEndDatesForWeek 2023 (.dateObj 19494) .monday =
      some (resolvedWeekStart .monday 2023 20,
        resolvedWeekStart .monday 2023 20 + 6)) ∧
    resolvedWeekStart .monday 2023 20 = 19492 ∧
    civilFromDays 19492 = ⟨2023, 5, 15⟩ ∧
    civilFromDays (19492 + 6) = ⟨2023, 5, 21⟩ ∧
    dayOfWeek (resolvedWeekStart .monday 2023 20) =
      StartOfWeek.monday.weekStartsOn := by
  have h := claim_C5_week_token_forms_agree .monday 2023 2 0 2 3 2 0
    (by decide) (by decide) (by decide) (by decide) (by decide) (by decide)
    (by decide) (by decide) (by decide) (by decide)
  exact ⟨h.1, h.2.1, h.2.2.1 19494 (by decide) (by decide), by decide, by decide,
    by decide, h.2.2.2.2⟩

end NpmStats
